import Mathlib

/-!
# Verification of the Schwab portfolio-manager trading core

A shallow embedding of the risk-assessment, recommendation, validation and
execution modules of the `tradingScriptBardSchwab` repository
(`src/schwab/portfolio.py`, `src/analysis/risk.py`, `src/trading/strategy.py`,
`src/trading/validation.py`, `src/trading/executor.py`), together with proofs
and refutations of the specified properties.

Modelling conventions:
* Python floats are modelled by `ℚ` (exact arithmetic); the only genuinely
  irrational quantities — `np.std` and the `√252` annualisation factor — are
  modelled in `ℝ` via `Real.sqrt`.
* Exceptions are modelled by `Except String`; a Python `try/except` becomes a
  `match` on the `Except` value.
* Python dicts keyed by strings are modelled by association lists
  (`List (String × _)`), preserving insertion order and first-match lookup.
-/

/-- Python `int()` applied to a float: truncation toward zero. -/
def pyTrunc (q : ℚ) : ℤ := if 0 ≤ q then ⌊q⌋ else ⌈q⌉

/-- Python 3 `round()` to zero decimals: round half to even (banker's rounding). -/
def pyRound (q : ℚ) : ℤ :=
  let f : ℤ := ⌊q⌋
  if q - f < 1/2 then f
  else if 1/2 < q - f then f + 1
  else if f % 2 = 0 then f else f + 1

/-- `src/schwab/portfolio.py::Position`.  The free-form `instrument_data`
mapping is modelled by the only two leaves the core ever reads:
`instrument_data['fundamental']['beta']` (absent ⇒ `none`) and
`instrument_data['fundamental']['sector']` (absent ⇒ `none`, read with
default `"Unknown"`).  `weight` is the attribute set by the owning
portfolio; `getattr(self, '_weight', 0)` gives the default 0. -/
structure Position where
  symbol : String
  quantity : ℚ
  assetType : String
  costBasis : ℚ
  marketValue : ℚ
  currentPrice : ℚ
  beta : Option ℚ := none
  sector : Option String := none
  weight : ℚ := 0
deriving DecidableEq, Repr

/-- `instrument_data.get('fundamental', {}).get('sector', 'Unknown')`. -/
def Position.getSector (p : Position) : String := p.sector.getD "Unknown"

/-- `src/schwab/portfolio.py::Portfolio` (data fields). -/
structure Portfolio where
  accountId : String
  positions : List Position
  accountValue : ℚ
  cashBalance : ℚ
deriving DecidableEq, Repr

/-- `Portfolio._calculate_position_weights`: stamp each position's `weight`
with `market_value / account_value * 100` (all zero when `account_value == 0`). -/
def calculatePositionWeights (ps : List Position) (accountValue : ℚ) : List Position :=
  if accountValue = 0 then ps.map (fun p => { p with weight := 0 })
  else ps.map (fun p => { p with weight := p.marketValue / accountValue * 100 })

/-- `Portfolio.__post_init__`: construction recomputes the position weights
(the derived `sectors` / `sector_allocations` attributes are modelled as the
functions below, which compute the same values on demand). -/
def mkPortfolio (accountId : String) (positions : List Position)
    (accountValue cashBalance : ℚ) : Portfolio :=
  { accountId := accountId
    positions := calculatePositionWeights positions accountValue
    accountValue := accountValue
    cashBalance := cashBalance }

/-- `Portfolio._get_sectors`: the set of sector tags (a list without
duplicates; Python uses a `set`, whose iteration order is irrelevant to the
sums and counts the core takes over it). -/
def Portfolio.sectors (pf : Portfolio) : List String :=
  (pf.positions.map Position.getSector).dedup

/-- `Portfolio._calculate_sector_allocations`: sector → percentage of
account value held in that sector (0 if `account_value ≤ 0`). -/
def Portfolio.sectorAllocations (pf : Portfolio) : List (String × ℚ) :=
  pf.sectors.map (fun s =>
    let sectorValue := ((pf.positions.filter (fun p => p.getSector == s)).map
      Position.marketValue).sum
    (s, if 0 < pf.accountValue then sectorValue / pf.accountValue * 100 else 0))

/-- `Portfolio.total_market_value`. -/
def Portfolio.totalMarketValue (pf : Portfolio) : ℚ :=
  (pf.positions.map Position.marketValue).sum

/-- `Portfolio.cash_allocation`. -/
def Portfolio.cashAllocation (pf : Portfolio) : ℚ :=
  if 0 < pf.accountValue then pf.cashBalance / pf.accountValue * 100 else 0

/-- `Portfolio.get_position_by_symbol`: first position with a matching symbol. -/
def Portfolio.getPositionBySymbol (pf : Portfolio) (symbol : String) : Option Position :=
  pf.positions.find? (fun p => p.symbol == symbol)

/-- Population variance of a list, i.e. the square of `np.std`
(`np.std` uses `ddof = 0`).  Empty list: `0` (the source only calls
`np.std` on nonempty lists, or guards with `if weights else 0`). -/
def npVariance (xs : List ℚ) : ℚ :=
  ((xs.map (fun x => (x - xs.sum / xs.length)^2)).sum) / xs.length

/-- `np.std`: the square root of the population variance. -/
noncomputable def npStd (xs : List ℚ) : ℝ := Real.sqrt ((npVariance xs : ℚ) : ℝ)

/-- `src/analysis/risk.py::calculate_diversification_risk`. -/
noncomputable def calculate_diversification_risk (pf : Portfolio) : ℝ :=
  if pf.positions = [] then 0 else
  let numPositions := pf.positions.length
  let baseScore : ℝ :=
    if 20 ≤ numPositions then 0
    else if 15 ≤ numPositions then 20
    else if 10 ≤ numPositions then 40
    else if 5 ≤ numPositions then 60
    else 80
  let weights := pf.positions.map Position.weight
  let weightStd : ℝ := npStd weights
  let stdFactor := min (weightStd * 2) 20
  let assetTypes := (pf.positions.map Position.assetType).dedup
  let assetTypeFactor : ℝ := max 0 (20 - assetTypes.length * 5)
  min (baseScore + stdFactor + assetTypeFactor) 100

/-- `src/analysis/risk.py::calculate_concentration_risk`.  The Python loop
`concentration_risk += (position.weight - 10) * 2` over positions with
`weight > 10` is the per-position penalty sum below. -/
def calculate_concentration_risk (pf : Portfolio) : ℚ :=
  if pf.positions = [] then 0 else
  let weights := pf.positions.map (fun p => p.weight / 100)
  let hhi := (weights.map (fun w => w^2)).sum
  let n := pf.positions.length
  let minHhi : ℚ := if 0 < n then 1 / n else 0
  let normalizedHhi := if 1 < n then (hhi - minHhi) / (1 - minHhi) else 1
  let penalty := (pf.positions.map (fun p =>
    if 10 < p.weight then (p.weight - 10) * 2 else 0)).sum
  min (normalizedHhi * 100 + penalty) 100

/-- `src/analysis/risk.py::calculate_sector_risk`. -/
def calculate_sector_risk (pf : Portfolio) : ℚ :=
  if pf.positions = [] then 0 else
  let sectorAllocs := pf.sectorAllocations
  let sectorWeights := sectorAllocs.map (fun a => a.2 / 100)
  let sectorHhi := (sectorWeights.map (fun w => w^2)).sum
  let n := sectorAllocs.length
  let minHhi : ℚ := if 0 < n then 1 / n else 0
  let normalizedHhi := if 1 < n then (sectorHhi - minHhi) / (1 - minHhi) else 1
  let penalty := (sectorAllocs.map (fun a =>
    if 25 < a.2 then (a.2 - 25) * 3 else 0)).sum
  min (normalizedHhi * 100 + penalty) 100

/-- `src/analysis/risk.py::calculate_market_risk`.  The Python loop
accumulating `weighted_beta` and `total_weight_with_beta` over positions
with a known beta is written as two sums. -/
def calculate_market_risk (pf : Portfolio) : ℚ :=
  let weightedBeta : ℚ := (pf.positions.map (fun p =>
    match p.beta with
    | some beta => p.weight / 100 * beta
    | none => 0)).sum
  let totalWeightWithBeta : ℚ := (pf.positions.map (fun p =>
    match p.beta with
    | some _ => p.weight / 100
    | none => 0)).sum
  if totalWeightWithBeta = 0 then 50
  else
    let weightedBeta :=
      if totalWeightWithBeta < 1 then weightedBeta / totalWeightWithBeta else weightedBeta
    let marketRisk := 50 * weightedBeta
    max 0 (min marketRisk 100)

/-- One entry of a pandas `DataFrame` of historical prices as the risk module
uses it: only the `close` column is ever read (`none` when absent). -/
structure HistFrame where
  closeSeries : Option (List ℚ) := none
deriving DecidableEq, Repr

/-- `historical_data : Dict[str, pd.DataFrame]`, insertion-ordered. -/
abbrev HistData := List (String × HistFrame)

/-- `df['close'].pct_change()` with the leading `NaN` dropped (pandas `std`
skips it): consecutive ratios minus one. -/
def pctChange (closes : List ℚ) : List ℚ :=
  List.zipWith (fun prev next => next / prev - 1) closes closes.tail

/-- Sample variance (pandas `Series.std` uses `ddof = 1`); degenerate lists
(length ≤ 1, where pandas produces `NaN`) fall to the Lean division-by-zero
convention and are outside every property below. -/
def sampleVariance (xs : List ℚ) : ℚ :=
  (xs.map (fun x => (x - xs.sum / xs.length)^2)).sum / ((xs.length : ℚ) - 1)

/-- `df['return'].std() * (252 ** 0.5)`: annualized volatility of a close
series. -/
noncomputable def annualizedVolatility (closes : List ℚ) : ℝ :=
  Real.sqrt ((sampleVariance (pctChange closes) : ℚ) : ℝ) * Real.sqrt 252

/-- `src/analysis/risk.py::calculate_volatility_risk`.  Each position
contributes `(weight/100, weight/100 * volatility)` when its symbol has data
carrying a `close` column; the loop totals are the two component sums. -/
noncomputable def calculate_volatility_risk (pf : Portfolio) (historicalData : HistData) : ℝ :=
  let contrib : List (ℚ × ℝ) := pf.positions.map (fun p =>
    match historicalData.lookup p.symbol with
    | some df =>
      match df.closeSeries with
      | some closes => (p.weight / 100, ((p.weight / 100 : ℚ) : ℝ) * annualizedVolatility closes)
      | none => (0, 0)
    | none => (0, 0))
  let weightedVolatility : ℝ := (contrib.map Prod.snd).sum
  let totalWeightWithData : ℚ := (contrib.map Prod.fst).sum
  if totalWeightWithData = 0 then 50
  else
    let weightedVolatility :=
      if totalWeightWithData < 1 then weightedVolatility / ((totalWeightWithData : ℚ) : ℝ)
      else weightedVolatility
    let volatilityRisk := weightedVolatility / 0.4 * 100
    max 0 (min volatilityRisk 100)

/-- `src/analysis/risk.py::calculate_position_risk`. -/
def calculate_position_risk (position : Position) (pf : Portfolio) : ℚ :=
  let weight := position.weight
  let sizeRisk : ℚ :=
    if 15 < weight then 100
    else if 10 < weight then 50 + (weight - 10) * 10
    else if 5 < weight then (weight - 5) * 10
    else 0
  let betaRisk : ℚ :=
    match position.beta with
    | some beta => max 0 (min (beta * 50) 100)
    | none => 50
  let sector := position.getSector
  let sectorAllocation := (pf.sectorAllocations.lookup sector).getD 0
  let sectorRisk : ℚ :=
    if 25 < sectorAllocation then 50 + (sectorAllocation - 25) * 2
    else sectorAllocation / 25 * 50
  min (0.4 * sizeRisk + 0.4 * betaRisk + 0.2 * sectorRisk) 100

/-- One element of the `position_risks` list in the risk report. -/
structure PositionRiskEntry where
  symbol : String
  riskScore : ℚ
  weight : ℚ
  beta : Option ℚ
deriving DecidableEq, Repr

/-- Python dict assignment `d[k] = v` on a string-keyed dict (replace in
place if the key exists, else append). -/
def dictSet (d : List (String × ℝ)) (k : String) (v : ℝ) : List (String × ℝ) :=
  if (d.map Prod.fst).contains k then d.map (fun kv => if kv.1 = k then (k, v) else kv)
  else d ++ [(k, v)]

/-- Python `k in d` on a string-keyed dict. -/
def dictContains (d : List (String × ℝ)) (k : String) : Bool :=
  (d.map Prod.fst).contains k

/-- Python `d[k]` (with a default for totality; every access in the embedded
code is to a key that is present). -/
def dictGetD (d : List (String × ℝ)) (k : String) (v : ℝ) : ℝ :=
  (d.lookup k).getD v

/-- `src/analysis/risk.py::calculate_portfolio_risk`.  The `risk_metrics`
dict is the association list (scalar entries) paired with the
`position_risks` list.  Note the dict is initialised with a
`"volatility_risk"` key (value 0), so the later membership test
`"volatility_risk" in risk_metrics` is evaluated against a dict that always
contains the key. -/
noncomputable def calculate_portfolio_risk (pf : Portfolio) (historicalData : Option HistData) :
    List (String × ℝ) × List PositionRiskEntry :=
  let riskMetrics : List (String × ℝ) :=
    [("overall_risk_score", 0), ("diversification_risk", 0), ("market_risk", 0),
     ("volatility_risk", 0), ("concentration_risk", 0), ("sector_risk", 0)]
  let diversificationRisk := calculate_diversification_risk pf
  let riskMetrics := dictSet riskMetrics "diversification_risk" diversificationRisk
  let concentrationRisk := calculate_concentration_risk pf
  let riskMetrics := dictSet riskMetrics "concentration_risk" (concentrationRisk : ℝ)
  let sectorRisk := calculate_sector_risk pf
  let riskMetrics := dictSet riskMetrics "sector_risk" (sectorRisk : ℝ)
  let marketRisk := calculate_market_risk pf
  let riskMetrics := dictSet riskMetrics "market_risk" (marketRisk : ℝ)
  -- `if historical_data:` — Python truthiness: `None` and `{}` are falsy
  let riskMetrics :=
    match historicalData with
    | some hd =>
      if hd.isEmpty then riskMetrics
      else dictSet riskMetrics "volatility_risk" (calculate_volatility_risk pf hd)
    | none => riskMetrics
  let positionRisks := pf.positions.map (fun p =>
    { symbol := p.symbol, riskScore := calculate_position_risk p pf,
      weight := p.weight, beta := p.beta : PositionRiskEntry })
  let overallRisk : ℝ := 0.25 * diversificationRisk + 0.25 * (concentrationRisk : ℝ) +
    0.2 * (sectorRisk : ℝ) + 0.3 * (marketRisk : ℝ)
  let overallRisk :=
    if dictContains riskMetrics "volatility_risk" then
      0.2 * diversificationRisk + 0.2 * (concentrationRisk : ℝ) + 0.15 * (sectorRisk : ℝ) +
        0.25 * (marketRisk : ℝ) + 0.2 * dictGetD riskMetrics "volatility_risk" 0
    else overallRisk
  let riskMetrics := dictSet riskMetrics "overall_risk_score" overallRisk
  (riskMetrics, positionRisks)

/-- Modelled from the spec: the `Recommendation` class is imported from
`src.analysis.recommendation` by the strategy, validation and executor
modules, but its definition is not among the sources.  Per the spec (§3):
action (`"BUY"` or `"SELL"`), symbol, an optional absolute quantity, an
optional percentage, and a priority (higher = more urgent; the strategy
constructs recommendations and then assigns `priority`, so a constructed
recommendation carries a default before assignment).  The free-text
`rationale` carries no behaviour and is not modelled. -/
structure Recommendation where
  action : String
  symbol : String
  quantity : Option ℚ := none
  percentage : Option ℚ := none
  priority : ℤ := 0
deriving DecidableEq, Repr

/-- The configuration dict: exactly the keys the trading core reads, each
`none` when absent (every read in the source goes through
`config.get(KEY, default)`, mirrored by `Option.getD` at the use sites). -/
structure Config where
  dryRun : Option Bool := none
  enableAutoTrading : Option Bool := none
  schwabAccountId : Option String := none
  maxTradesPerSession : Option ℕ := none
  minTradeQuantity : Option ℚ := none
  maxTradeQuantity : Option ℚ := none
  minCashReservePercent : Option ℚ := none
  maxPositionSizePercent : Option ℚ := none
  minPositionSize : Option ℚ := none
  riskTolerance : Option ℤ := none
  maxSectorExposurePercent : Option ℚ := none
deriving DecidableEq, Repr

/-- The validation result dict `{"valid": ..., "reason": ..., "quantity": ...}`.
Reason strings are the fixed message templates; interpolated values are
elided. -/
structure ValidationResult where
  valid : Bool
  reason : String
  quantity : ℚ
deriving DecidableEq, Repr

/-- The two-field result dict of `validate_buy` / `validate_sell`. -/
structure CheckResult where
  valid : Bool
  reason : String
deriving DecidableEq, Repr

/-- A quote as the validator reads it: only `lastPrice` is accessed
(`quote.get("lastPrice", 0)`). -/
structure QuoteData where
  lastPrice : Option ℚ := none
deriving DecidableEq, Repr

/-- The result of `client.create_equity_order`: only `orderId` is accessed. -/
structure OrderResult where
  orderId : Option String := none
deriving DecidableEq, Repr

/-- The brokerage gateway (`SchwabClient`) as the trading core uses it.
Each operation either returns a value or raises (`Except.error`, the
`SchwabClientError` of the source). -/
structure Client where
  getPortfolio : Except String Portfolio
  getQuote : List String → Except String (List (String × QuoteData))
  createEquityOrder : (symbol : String) → (quantity : ℚ) → (instruction : String) →
    (price : Option ℚ) → (dryRun : Bool) → Except String OrderResult

/-- `src/trading/validation.py::validate_symbol`: quote lookup succeeds and
contains the symbol; any raised error is caught and yields `false`. -/
def validate_symbol (symbol : String) (client : Client) : Bool :=
  match client.getQuote [symbol] with
  | .ok quotes => (quotes.map Prod.fst).contains symbol
  | .error _ => false

/-- `src/trading/validation.py::validate_quantity`.  The
quantity-resolution cases mirror the source: an explicit quantity wins; else
a percentage (of cash for BUY, of the position for SELL, truncated to whole
shares); else the defaults (whole position for SELL, 5% of cash for BUY).
The resolved quantity is then checked against the configured minimum and
clamped to the configured maximum.  (For an action outside BUY/SELL with
only a percentage, the Python local `quantity` would be unbound — a crash
outside the closed action set; modelled as resolving to 0.) -/
def validate_quantity (recommendation : Recommendation) (position : Option Position)
    (portfolio : Portfolio) (currentPrice : ℚ) (config : Config) : ValidationResult :=
  let invalid : String → ValidationResult :=
    fun r => { valid := false, reason := r, quantity := 0 }
  let resolved : Except ValidationResult ℚ :=
    match recommendation.quantity with
    | some q =>
      if recommendation.action = "SELL" then
        match position with
        | none => .error (invalid "Recommended sell quantity exceeds current position")
        | some pos =>
          if pos.quantity < q then
            .error (invalid "Recommended sell quantity exceeds current position")
          else .ok q
      else .ok q
    | none =>
      match recommendation.percentage with
      | some percentage =>
        if recommendation.action = "BUY" then
          let cash := portfolio.cashBalance
          let valueToTrade := cash * (percentage / 100)
          let q : ℚ := if 0 < currentPrice then valueToTrade / currentPrice else 0
          let q : ℚ := (pyTrunc q : ℚ)
          if q ≤ 0 then .error (invalid "Insufficient cash to buy percentage of cash balance")
          else .ok q
        else if recommendation.action = "SELL" then
          match position with
          | none => .error (invalid "Cannot sell percentage of non-existent position")
          | some pos =>
            let q : ℚ := (pyTrunc (pos.quantity * (percentage / 100)) : ℚ)
            if q ≤ 0 then .error (invalid "Sell percentage results in zero shares")
            else .ok q
        else .ok 0
      | none =>
        if recommendation.action = "SELL" then
          match position with
          | none => .error (invalid "Cannot sell non-existent position")
          | some pos => .ok pos.quantity
        else
          let cash := portfolio.cashBalance
          let valueToTrade := cash * ((5 : ℚ) / 100)
          let q : ℚ := if 0 < currentPrice then valueToTrade / currentPrice else 0
          let q : ℚ := (pyTrunc q : ℚ)
          if q ≤ 0 then .error (invalid "Insufficient cash for default buy quantity")
          else .ok q
  match resolved with
  | .error r => r
  | .ok q =>
    let minQuantity := config.minTradeQuantity.getD 1
    let maxQuantity := config.maxTradeQuantity.getD 10000
    if q < minQuantity then invalid "Quantity below minimum"
    else
      let q := if maxQuantity < q then maxQuantity else q
      { valid := true, reason := "", quantity := q }

/-- `src/trading/validation.py::validate_buy`. -/
def validate_buy (recommendation : Recommendation) (portfolio : Portfolio) (quantity : ℚ)
    (currentPrice : ℚ) (config : Config) : CheckResult :=
  let cashBalance := portfolio.cashBalance
  let cost := quantity * currentPrice
  if cashBalance < cost then { valid := false, reason := "Insufficient cash for trade" }
  else
    let minCashReserve := config.minCashReservePercent.getD 5
    let minCashAmount := portfolio.accountValue * (minCashReserve / 100)
    let remainingCash := cashBalance - cost
    if remainingCash < minCashAmount then
      { valid := false, reason := "Trade would reduce cash below minimum reserve" }
    else
      let maxPositionSize := config.maxPositionSizePercent.getD 10
      let existingValue :=
        ((portfolio.getPositionBySymbol recommendation.symbol).map Position.marketValue).getD 0
      let newValue := existingValue + cost
      let newWeight := newValue / (portfolio.accountValue + cost - existingValue) * 100
      if maxPositionSize < newWeight then
        { valid := false, reason := "Trade would create position exceeding maximum size" }
      else { valid := true, reason := "" }

/-- `src/trading/validation.py::validate_sell`. -/
def validate_sell (recommendation : Recommendation) (position : Option Position)
    (quantity : ℚ) (config : Config) : CheckResult :=
  match position with
  | none => { valid := false, reason := "Cannot sell non-existent position" }
  | some pos =>
    if pos.quantity < quantity then
      { valid := false, reason := "Insufficient shares for sale" }
    else
      let minPositionSize := config.minPositionSize.getD 1
      let newQuantity := pos.quantity - quantity
      if 0 < newQuantity ∧ newQuantity < minPositionSize then
        { valid := false, reason := "Sale would reduce position below minimum size" }
      else { valid := true, reason := "" }

/-- `src/trading/validation.py::validate_trade`.  The `try` block fetching
the portfolio and quotes is the `Except`-valued `dataFetch`; a gateway error
is caught (`except Exception`) and converted into an invalid result whose
reason records the failure. -/
def validate_trade (recommendation : Recommendation) (client : Client)
    (config : Config) : ValidationResult :=
  let result0 : ValidationResult := { valid := false, reason := "", quantity := 0 }
  if ¬ validate_symbol recommendation.symbol client then
    { result0 with reason := "Invalid symbol" }
  else
    let dataFetch : Except String (Portfolio × Option Position × ℚ) := do
      let portfolio ← client.getPortfolio
      let position := portfolio.getPositionBySymbol recommendation.symbol
      let quotes ← client.getQuote [recommendation.symbol]
      let quote := (quotes.lookup recommendation.symbol).getD {}
      let currentPrice := quote.lastPrice.getD 0
      pure (portfolio, position, currentPrice)
    match dataFetch with
    | .error _ => { result0 with reason := "Failed to get position or quote data" }
    | .ok (portfolio, position, currentPrice) =>
      if currentPrice = 0 then { result0 with reason := "Could not get current price" }
      else
        let quantityResult := validate_quantity recommendation position portfolio currentPrice config
        if ¬ quantityResult.valid then { result0 with reason := quantityResult.reason }
        else
          let result := { result0 with quantity := quantityResult.quantity }
          if recommendation.action = "BUY" then
            let buyValidation :=
              validate_buy recommendation portfolio result.quantity currentPrice config
            if ¬ buyValidation.valid then { result with reason := buyValidation.reason }
            else { result with valid := true }
          else if recommendation.action = "SELL" then
            let sellValidation := validate_sell recommendation position result.quantity config
            if ¬ sellValidation.valid then { result with reason := sellValidation.reason }
            else { result with valid := true }
          else { result with valid := true }

/-- `src/trading/executor.py::ExecutedTrade` (timestamp not modelled). -/
structure ExecutedTrade where
  symbol : String
  action : String
  quantity : ℚ
  price : Option ℚ := none
  orderId : Option String := none
  status : String := "pending"
deriving DecidableEq, Repr

/-- `src/trading/executor.py::execute_single_trade`: submits a market order;
a gateway error is re-raised as `TradeExecutionError` (`Except.error`). -/
def execute_single_trade (recommendation : Recommendation) (quantity : ℚ) (client : Client)
    (_accountId : Option String) (dryRun : Bool) : Except String ExecutedTrade :=
  let instruction := if recommendation.action = "BUY" then "BUY" else "SELL"
  match client.createEquityOrder recommendation.symbol quantity instruction none dryRun with
  | .error e => .error ("Failed to execute trade: " ++ e)
  | .ok orderResult =>
    if dryRun then
      .ok { symbol := recommendation.symbol, action := recommendation.action,
            quantity := quantity, status := "simulated" }
    else
      let orderId := orderResult.orderId
      let status := if orderId.isSome then "completed" else "failed"
      .ok { symbol := recommendation.symbol, action := recommendation.action,
            quantity := quantity, orderId := orderId, status := status }

/-- Python's stable `list.sort(key=lambda x: x.priority, reverse=True)`.
A stable sort is extensionally unique, so the (stable) insertion sort below
computes exactly the list Python's Timsort produces. -/
def sortByPriorityDesc (recs : List Recommendation) : List Recommendation :=
  List.insertionSort (fun a b => b.priority ≤ a.priority) recs

/-- The per-recommendation body of the executor's loop
(`src/trading/executor.py::execute_trades`, lines 104–129): the whole body
is wrapped in `try/except Exception`, so a validation rejection and a raised
execution error alike skip the recommendation and continue with the rest. -/
def executeTradesLoop (client : Client) (config : Config) (accountId : Option String)
    (dryRun : Bool) : List Recommendation → List ExecutedTrade
  | [] => []
  | recommendation :: rest =>
    let step : Except String (Option ExecutedTrade) := do
      let validationResult := validate_trade recommendation client config
      if validationResult.valid then do
        let t ← execute_single_trade recommendation validationResult.quantity client
          accountId dryRun
        pure (some t)
      else pure none
    match step with
    | .error _ => executeTradesLoop client config accountId dryRun rest
    | .ok none => executeTradesLoop client config accountId dryRun rest
    | .ok (some t) => t :: executeTradesLoop client config accountId dryRun rest

/-- `src/trading/executor.py::execute_trades`.  Sorts by priority
(descending), caps the session at `MAX_TRADES_PER_SESSION` (the loop breaks
at the cap, i.e. processes the prefix), and runs the caught loop body per
recommendation.  The result type is `Except` so that a propagated error
would be observable; the source catches every per-recommendation exception,
which is why every branch below ends in `.ok`. -/
def execute_trades (recommendations : List Recommendation) (client : Client)
    (config : Config) : Except String (List ExecutedTrade) :=
  let dryRun := config.dryRun.getD true
  if ¬ (config.enableAutoTrading.getD false) then .ok []
  else
    let accountId := config.schwabAccountId
    let sortedRecommendations := sortByPriorityDesc recommendations
    let maxTrades := config.maxTradesPerSession.getD 5
    .ok (executeTradesLoop client config accountId dryRun
      (sortedRecommendations.take maxTrades))

/-- The slice of `analysis_results` the risk-averse strategy reads:
`analysis_results.get("risk_metrics", {}).get("position_risks", [])`. -/
structure AnalysisResults where
  positionRisks : List PositionRiskEntry := []
deriving DecidableEq, Repr

/-- `RiskAverseStrategy._check_position_sizes`: one SELL (priority 10) per
position whose weight exceeds the maximum position size. -/
def checkPositionSizes (portfolio : Portfolio) (maxPositionSize : ℚ) : List Recommendation :=
  portfolio.positions.filterMap (fun position =>
    if maxPositionSize < position.weight then
      let excessPct := position.weight - maxPositionSize
      let reductionPct := excessPct / position.weight * 100
      let reductionPct : ℤ := pyRound reductionPct
      some { action := "SELL", symbol := position.symbol,
             percentage := some (reductionPct : ℚ), priority := 10 }
    else none)

/-- `RiskAverseStrategy._check_sector_exposures`: for each sector over the
exposure limit, sell down the largest position in that sector (priority 9);
skipped when the sector has no positions or the rounded percentage is ≤ 0. -/
def checkSectorExposures (portfolio : Portfolio) (maxSectorExposure : ℚ) : List Recommendation :=
  portfolio.sectorAllocations.filterMap (fun sa =>
    let sector := sa.1
    let allocation := sa.2
    if maxSectorExposure < allocation then
      let excessPct := allocation - maxSectorExposure
      let sectorPositions := portfolio.positions.filter (fun p => p.getSector == sector)
      -- `sector_positions.sort(key=lambda p: p.weight, reverse=True)` (stable)
      match List.insertionSort (fun a b : Position => b.weight ≤ a.weight) sectorPositions with
      | [] => none
      | largestPosition :: _ =>
        let reductionValue := excessPct / 100 * portfolio.accountValue
        let positionReductionPct := min (reductionValue / largestPosition.marketValue * 100) 50
        let positionReductionPct : ℤ := pyRound positionReductionPct
        if 0 < positionReductionPct then
          some { action := "SELL", symbol := largestPosition.symbol,
                 percentage := some (positionReductionPct : ℚ), priority := 9 }
        else none
    else none)

/-- `RiskAverseStrategy._check_high_risk_positions`: one SELL (priority 8)
per reported position risk above the tolerance threshold, skipping symbols
that do not resolve to a position and rounded percentages ≤ 0. -/
def checkHighRiskPositions (portfolio : Portfolio) (positionRisks : List PositionRiskEntry)
    (riskTolerance : ℤ) : List Recommendation :=
  let riskThreshold : ℚ := 100 - (riskTolerance : ℚ) * 10
  positionRisks.filterMap (fun pr =>
    if riskThreshold < pr.riskScore then
      match portfolio.getPositionBySymbol pr.symbol with
      | none => none
      | some _ =>
        let excessRisk := pr.riskScore - riskThreshold
        let reductionPct := min excessRisk 50
        let reductionPct : ℤ := pyRound reductionPct
        if 0 < reductionPct then
          some { action := "SELL", symbol := pr.symbol,
                 percentage := some (reductionPct : ℚ), priority := 8 }
        else none
    else none)

/-- `RiskAverseStrategy._check_cash_deployment`: when cash exceeds the
risk-tolerance target by more than 10 points, either buy the broad-market
ETF (fewer than 15 positions) or add to the first safe, small position
(priority 5; at most one recommendation). -/
def checkCashDeployment (config : Config) (portfolio : Portfolio) : List Recommendation :=
  let riskTolerance := config.riskTolerance.getD 5
  let targetCashPct : ℚ := max 5 (20 - (riskTolerance : ℚ) * 1.5)
  let currentCashPct := portfolio.cashAllocation
  if targetCashPct + 10 < currentCashPct then
    let excessCashPct := currentCashPct - targetCashPct
    if portfolio.positions.length < 15 then
      [{ action := "BUY", symbol := "VTI",
         percentage := some (excessCashPct / 2), priority := 5 }]
    else
      match portfolio.positions.find? (fun position =>
        let isSafe := position.assetType == "ETF" || decide (position.beta.getD 1.5 < 1)
        let maxPositionSize := config.maxPositionSizePercent.getD 10
        let isSmall := decide (position.weight < maxPositionSize / 2)
        isSafe && isSmall) with
      | some position =>
        [{ action := "BUY", symbol := position.symbol,
           percentage := some (excessCashPct / 3), priority := 5 }]
      | none => []
  else []

/-- `RiskAverseStrategy._check_rebalancing_opportunities`: with ≥ 3
positions and very uneven weights (`np.std(weights) > 8`, i.e. population
variance > 64 since the standard deviation is the nonnegative square root),
pair a SELL of the largest with a BUY of the smallest (priority 6) when the
transfer is at least 5 percentage points. -/
def checkRebalancing (portfolio : Portfolio) : List Recommendation :=
  if portfolio.positions.length < 3 then []
  else
    let weights := portfolio.positions.map Position.weight
    if 64 < npVariance weights then
      match List.insertionSort (fun a b : Position => b.weight ≤ a.weight) portfolio.positions with
      | [] => []
      | largestPosition :: restSorted =>
        let smallestPosition := restSorted.getLastD largestPosition
        if smallestPosition.weight * 3 < largestPosition.weight ∧ 0 < smallestPosition.weight then
          let weightDiff := largestPosition.weight - smallestPosition.weight
          let transferPct : ℤ := pyRound (weightDiff * 0.2)
          if 5 ≤ transferPct then
            [{ action := "SELL", symbol := largestPosition.symbol,
               percentage := some (transferPct : ℚ), priority := 6 },
             { action := "BUY", symbol := smallestPosition.symbol,
               percentage := some (transferPct : ℚ), priority := 6 }]
          else []
        else []
    else []

/-- `RiskAverseStrategy.generate_recommendations`
(`src/trading/strategy.py`): run the five checks in order, appending to one
list, then sort by priority descending. -/
def generate_recommendations (config : Config) (portfolio : Portfolio)
    (analysisResults : AnalysisResults) : List Recommendation :=
  let riskTolerance := config.riskTolerance.getD 5
  let maxPositionSize := config.maxPositionSizePercent.getD 10
  let maxSectorExposure := config.maxSectorExposurePercent.getD 25
  let recommendations :=
    checkPositionSizes portfolio maxPositionSize ++
    checkSectorExposures portfolio maxSectorExposure ++
    checkHighRiskPositions portfolio analysisResults.positionRisks riskTolerance ++
    checkCashDeployment config portfolio ++
    checkRebalancing portfolio
  sortByPriorityDesc recommendations

/-- `calculate_concentration_risk` as a function of the bare weight list
(the function reads nothing else of the portfolio); used to reason about
weight transformations. -/
def concentrationOfWeights (ws : List ℚ) : ℚ :=
  if ws = [] then 0 else
  let hhi := ((ws.map (fun w => w / 100)).map (fun w => w^2)).sum
  let n := ws.length
  let minHhi : ℚ := if 0 < n then 1 / n else 0
  let normalizedHhi := if 1 < n then (hhi - minHhi) / (1 - minHhi) else 1
  let penalty := (ws.map (fun w => if 10 < w then (w - 10) * 2 else 0)).sum
  min (normalizedHhi * 100 + penalty) 100

/-- Test fixture: a fully specified position holding `marketValue` dollars. -/
def positionFixture (symbol : String) (marketValue : ℚ) (beta : Option ℚ)
    (sector : Option String) : Position :=
  { symbol := symbol, quantity := 1, assetType := "EQUITY", costBasis := marketValue,
    marketValue := marketValue, currentPrice := marketValue, beta := beta, sector := sector }

/-- Test fixture: a position with an explicitly stored weight, as the risk
module reads it. -/
def weightFixture (symbol : String) (weight : ℚ) : Position :=
  { symbol := symbol, quantity := 1, assetType := "EQUITY", costBasis := 1,
    marketValue := 1, currentPrice := 1, weight := weight }

/-- One fully-invested position (beta 1), half the account in cash withheld
from `account_value`; no historical data. -/
def pfC1 : Portfolio := mkPortfolio "ACC" [positionFixture "AAPL" 50 (some 1) none] 100 50

/-- Two tiny positions (1% each) in a mostly-cash account. -/
def pfTiny : Portfolio :=
  mkPortfolio "ACC" [positionFixture "AAA" 1 none none, positionFixture "BBB" 1 none none] 100 98

/-- The empty portfolio. -/
def pfEmpty : Portfolio := mkPortfolio "ACC" ([] : List Position) 100 100

/-- A portfolio whose `account_value` (100) is not the sum of position
market values (50) plus cash (0) — constructible since `account_value`
is an independent constructor argument (`liquidationValue` upstream). -/
def pfMismatch : Portfolio := mkPortfolio "ACC" [positionFixture "AAA" 50 none none] 100 0

/-- Weights (2, 9, 9): total 20, the small position about to grow. -/
def pfGrowBefore : Portfolio :=
  { accountId := "ACC", accountValue := 1000, cashBalance := 0,
    positions := [weightFixture "AAA" 2, weightFixture "BBB" 9, weightFixture "CCC" 9] }

/-- Weights (4, 8, 8): position AAA grown 2 → 4, the others shrunk
proportionally by the factor (20 − 4)/(20 − 2) = 8/9. -/
def pfGrowAfter : Portfolio :=
  { accountId := "ACC", accountValue := 1000, cashBalance := 0,
    positions := [weightFixture "AAA" 4, weightFixture "BBB" 8, weightFixture "CCC" 8] }

/-- A gateway whose portfolio retrieval always raises, while quotes and
order placement work. -/
def clientFailingPortfolio : Client :=
  { getPortfolio := .error "API Error"
    getQuote := fun _ => .ok [("AAPL", { lastPrice := some 100 })]
    createEquityOrder := fun _ _ _ _ _ => .ok { orderId := some "1" } }

/-- A gateway that answers every call successfully. -/
def clientHappy : Client :=
  { getPortfolio := .ok (mkPortfolio "ACC" [positionFixture "AAPL" 50 (some 1) none] 100 50)
    getQuote := fun syms => .ok (syms.map (fun s => (s, { lastPrice := some 100 })))
    createEquityOrder := fun _ _ _ _ _ => .ok { orderId := some "1" } }

/-- A gateway that rejects every call. -/
def clientAllFailing : Client :=
  { getPortfolio := .error "down"
    getQuote := fun _ => .error "down"
    createEquityOrder := fun _ _ _ _ _ => .error "down" }

/-- A buy recommendation for one share of AAPL. -/
def recBuyAAPL : Recommendation := { action := "BUY", symbol := "AAPL", quantity := some 1 }

/-- Auto-trading switched on, everything else defaulted. -/
def cfgAutoOn : Config := { enableAutoTrading := some true }

/-- Two equal positions that together make up the whole account. -/
def psHalf : List Position :=
  [positionFixture "AAA" 50 none none, positionFixture "BBB" 50 none none]

/-- Weights (11, 18/11, 81/11): the largest position of (9, 2, 9) grown
9 → 11 with the others shrunk proportionally by (20 − 11)/11 = 9/11. -/
def pfGrowLargest : Portfolio :=
  { accountId := "ACC", accountValue := 1000, cashBalance := 0,
    positions := [weightFixture "AAA" 11, weightFixture "BBB" (18/11),
      weightFixture "CCC" (81/11)] }

/-- C7: the list returned by the risk-averse recommendation engine is
sorted by priority in descending order, for every configuration, portfolio
and analysis input (hence for every permutation of the inputs). -/
theorem claim_C7_recommendations_sorted_desc (config : Config) (portfolio : Portfolio)
    (analysisResults : AnalysisResults) :
    List.Sorted (fun a b : Recommendation => b.priority ≤ a.priority)
      (generate_recommendations config portfolio analysisResults) := by
  haveI : IsTotal Recommendation (fun a b => b.priority ≤ a.priority) :=
    ⟨fun a b => le_total b.priority a.priority⟩
  haveI : IsTrans Recommendation (fun a b => b.priority ≤ a.priority) :=
    ⟨fun _ _ _ h1 h2 => le_trans h2 h1⟩
  exact List.sorted_insertionSort _ _

/-- C8: with auto-trading disabled, `execute_trades` returns the empty list
and its result does not depend on the gateway at all (in particular it
makes no gateway or validator calls). -/
theorem claim_C8_disabled_no_trades (recs : List Recommendation) (client client' : Client)
    (config : Config) (h : config.enableAutoTrading.getD false = false) :
    execute_trades recs client config = .ok [] ∧
      execute_trades recs client config = execute_trades recs client' config := by
  constructor <;> simp [execute_trades, h]

/-- Witness for C8 at a concrete configuration and two concrete gateways. -/
theorem claim_C8_disabled_no_trades_witness :
    ({} : Config).enableAutoTrading.getD false = false ∧
    execute_trades [recBuyAAPL] clientHappy {} = .ok [] ∧
    execute_trades [recBuyAAPL] clientHappy {} = execute_trades [recBuyAAPL] clientAllFailing {} :=
  ⟨rfl, (claim_C8_disabled_no_trades [recBuyAAPL] clientHappy clientAllFailing {} rfl).1,
    (claim_C8_disabled_no_trades [recBuyAAPL] clientHappy clientAllFailing {} rfl).2⟩

/-- C9: `validate_sell` rejects a sale of more shares than held, and rejects
a sale leaving a nonzero remainder below the configured minimum position
size. -/
theorem claim_C9_validate_sell_rejects (rec : Recommendation) (pos : Position) (q : ℚ)
    (config : Config) :
    (pos.quantity < q → (validate_sell rec (some pos) q config).valid = false) ∧
    (0 < pos.quantity - q → pos.quantity - q < config.minPositionSize.getD 1 →
      (validate_sell rec (some pos) q config).valid = false) := by
  constructor
  · intro h
    simp [validate_sell, h]
  · intro h1 h2
    have hnlt : ¬ pos.quantity < q := by linarith
    simp [validate_sell, hnlt, h1, h2]

/-- Witness for C9: selling 5 of a 1-share position is rejected, and selling
half a share of a 1-share position (remainder 1/2 < minimum 1) is rejected. -/
theorem claim_C9_validate_sell_rejects_witness :
    ((positionFixture "AAA" 50 none none).quantity < 5 ∧
      (validate_sell recBuyAAPL (some (positionFixture "AAA" 50 none none)) 5 {}).valid = false) ∧
    (0 < (positionFixture "AAA" 50 none none).quantity - 1/2 ∧
      (positionFixture "AAA" 50 none none).quantity - 1/2 < ({} : Config).minPositionSize.getD 1 ∧
      (validate_sell recBuyAAPL (some (positionFixture "AAA" 50 none none)) (1/2) {}).valid = false) :=
  ⟨⟨by norm_num [positionFixture],
    (claim_C9_validate_sell_rejects recBuyAAPL (positionFixture "AAA" 50 none none) 5 {}).1
      (by norm_num [positionFixture])⟩,
   ⟨by norm_num [positionFixture], by norm_num [positionFixture],
    (claim_C9_validate_sell_rejects recBuyAAPL (positionFixture "AAA" 50 none none) (1/2) {}).2
      (by norm_num [positionFixture]) (by norm_num [positionFixture])⟩⟩

/-- C10: when a recommendation carries an explicit quantity, the percentage
field has no effect on `validate_quantity` (same result for any two
percentage values), and a valid result resolves to the explicit quantity
clamped to the configured maximum. -/
theorem claim_C10_quantity_overrides_percentage (r : Recommendation) (pos : Option Position)
    (pf : Portfolio) (price : ℚ) (config : Config) (q : ℚ) (p₁ p₂ : Option ℚ)
    (hq : r.quantity = some q) :
    validate_quantity { r with percentage := p₁ } pos pf price config =
      validate_quantity { r with percentage := p₂ } pos pf price config ∧
    ((validate_quantity { r with percentage := p₁ } pos pf price config).valid = true →
      (validate_quantity { r with percentage := p₁ } pos pf price config).quantity =
        min q (config.maxTradeQuantity.getD 10000)) := by
  obtain ⟨act, sym, rq, rp, pri⟩ := r
  obtain rfl : rq = some q := hq
  refine ⟨rfl, ?_⟩
  intro hvalid
  by_cases hmin : q < config.minTradeQuantity.getD 1
  · by_cases hact : act = "SELL"
    · cases pos with
      | none => simp [validate_quantity, hact] at hvalid
      | some p =>
        by_cases hlt : p.quantity < q
        · simp [validate_quantity, hact, hlt] at hvalid
        · simp [validate_quantity, hact, hlt, hmin] at hvalid
    · simp [validate_quantity, hact, hmin] at hvalid
  · have hgoal : ∀ res : ValidationResult,
        res = { valid := true, reason := "",
                quantity := if config.maxTradeQuantity.getD 10000 < q then
                  config.maxTradeQuantity.getD 10000 else q } →
        res.quantity = min q (config.maxTradeQuantity.getD 10000) := by
      intro res hres
      subst hres
      by_cases hmax : config.maxTradeQuantity.getD 10000 < q
      · simp only [if_pos hmax]
        exact (min_eq_right hmax.le).symm
      · simp only [if_neg hmax]
        exact (min_eq_left (not_lt.mp hmax)).symm
    by_cases hact : act = "SELL"
    · cases pos with
      | none => simp [validate_quantity, hact] at hvalid
      | some p =>
        by_cases hlt : p.quantity < q
        · simp [validate_quantity, hact, hlt] at hvalid
        · apply hgoal
          simp [validate_quantity, hact, hlt, hmin]
    · apply hgoal
      simp [validate_quantity, hact, hmin]

/-- Witness for C10 at a concrete recommendation with explicit quantity 1
and two different percentage values. -/
theorem claim_C10_quantity_overrides_percentage_witness :
    recBuyAAPL.quantity = some 1 ∧
    (validate_quantity { recBuyAAPL with percentage := some 30 } none pfC1 100 {} =
      validate_quantity { recBuyAAPL with percentage := none } none pfC1 100 {} ∧
     ((validate_quantity { recBuyAAPL with percentage := some 30 } none pfC1 100 {}).valid = true →
      (validate_quantity { recBuyAAPL with percentage := some 30 } none pfC1 100 {}).quantity =
        min 1 (({} : Config).maxTradeQuantity.getD 10000))) :=
  ⟨rfl, claim_C10_quantity_overrides_percentage recBuyAAPL none pfC1 100 {} 1 (some 30) none rfl⟩

/-- C4 (amended): `calculate_market_risk` returns the unknown sentinel 50
for every portfolio — empty or not — in which no position carries beta
data. -/
theorem claim_C4_market_risk_sentinel (pf : Portfolio)
    (h : ∀ p ∈ pf.positions, p.beta = none) : calculate_market_risk pf = 50 := by
  have hz : (pf.positions.map (fun p =>
      match p.beta with
      | some _ => p.weight / 100
      | none => (0:ℚ))).sum = 0 := by
    apply List.sum_eq_zero
    intro x hx
    obtain ⟨p, hp, rfl⟩ := List.mem_map.mp hx
    rw [h p hp]
  simp [calculate_market_risk, hz]

/-- Witness for C4 at a concrete nonempty beta-free portfolio. -/
theorem claim_C4_market_risk_sentinel_witness :
    (∀ p ∈ pfMismatch.positions, p.beta = none) ∧ calculate_market_risk pfMismatch = 50 :=
  ⟨by simp [pfMismatch, mkPortfolio, calculatePositionWeights, positionFixture],
   claim_C4_market_risk_sentinel pfMismatch
    (by simp [pfMismatch, mkPortfolio, calculatePositionWeights, positionFixture])⟩

/-- Counterexample to C4 as stated: the empty portfolio also takes the
"no beta found" branch and yields the sentinel 50, not 0. -/
theorem claim_C4_empty_portfolio_counterexample :
    pfEmpty.positions = [] ∧ calculate_market_risk pfEmpty = 50 ∧
      calculate_market_risk pfEmpty ≠ 0 := by
  refine ⟨by simp [pfEmpty, mkPortfolio, calculatePositionWeights], ?_, ?_⟩ <;>
    simp [calculate_market_risk, pfEmpty, mkPortfolio, calculatePositionWeights]

/-- Weight stamping with a nonzero account value writes
`market_value / account_value * 100` into each position. -/
theorem map_weight_calculatePositionWeights (ps : List Position) (av : ℚ) (hav : av ≠ 0) :
    (calculatePositionWeights ps av).map Position.weight
      = ps.map (fun p => p.marketValue / av * 100) := by
  simp only [calculatePositionWeights, if_neg hav, List.map_map]
  rfl

/-- Pulling the common factor `/ av * 100` out of a weight sum. -/
theorem sum_map_weight_formula (av : ℚ) (l : List Position) :
    (l.map (fun p => p.marketValue / av * 100)).sum
      = (l.map Position.marketValue).sum / av * 100 := by
  induction l with
  | nil => simp
  | cons p t ih =>
    simp only [List.map_cons, List.sum_cons, ih]
    ring

/-- C5 (amended): for a freshly constructed portfolio whose `account_value`
equals total position market value plus cash (as when built from the
gateway's liquidation value), the position weights plus the cash allocation
sum to exactly 100. -/
theorem claim_C5_weights_plus_cash_total (accId : String) (ps : List Position) (av cash : ℚ)
    (hav : 0 < av) (hsum : (ps.map Position.marketValue).sum + cash = av) :
    ((mkPortfolio accId ps av cash).positions.map Position.weight).sum +
      (mkPortfolio accId ps av cash).cashAllocation = 100 := by
  have hne : av ≠ 0 := ne_of_gt hav
  have h2 : (mkPortfolio accId ps av cash).cashAllocation = cash / av * 100 := by
    simp [mkPortfolio, Portfolio.cashAllocation, hav]
  have h1 : (mkPortfolio accId ps av cash).positions = calculatePositionWeights ps av := rfl
  rw [h1, h2, map_weight_calculatePositionWeights ps av hne, sum_map_weight_formula]
  have hmv : (ps.map Position.marketValue).sum = av - cash := by linarith
  rw [hmv]
  field_simp
  ring

/-- Witness for C5 at a concrete fully accounted portfolio
(50 + 30 market value, 20 cash, account value 100). -/
theorem claim_C5_weights_plus_cash_total_witness :
    (0:ℚ) < 100 ∧
    (([positionFixture "AAA" 50 none none, positionFixture "BBB" 30 none none].map
        Position.marketValue).sum + 20 = (100:ℚ)) ∧
    ((mkPortfolio "ACC" [positionFixture "AAA" 50 none none,
        positionFixture "BBB" 30 none none] 100 20).positions.map Position.weight).sum +
      (mkPortfolio "ACC" [positionFixture "AAA" 50 none none,
        positionFixture "BBB" 30 none none] 100 20).cashAllocation = 100 :=
  ⟨by norm_num, by norm_num [positionFixture],
   claim_C5_weights_plus_cash_total "ACC"
     [positionFixture "AAA" 50 none none, positionFixture "BBB" 30 none none] 100 20
     (by norm_num) (by norm_num [positionFixture])⟩

/-- Counterexample to C5 as stated: a constructed portfolio with
`account_value = 100 > 0` but only 50 of market value and no cash — nothing
ties `account_value` to the positions — has weights + cash allocation
summing to 50, off by far more than the 0.01 tolerance. -/
theorem claim_C5_counterexample :
    0 < pfMismatch.accountValue ∧
    ¬ (|(pfMismatch.positions.map Position.weight).sum +
          pfMismatch.cashAllocation - 100| ≤ 1/100) := by
  have hS : (pfMismatch.positions.map Position.weight).sum + pfMismatch.cashAllocation = 50 := by
    norm_num [pfMismatch, mkPortfolio, calculatePositionWeights, positionFixture,
      Portfolio.cashAllocation]
  refine ⟨by norm_num [pfMismatch, mkPortfolio], ?_⟩
  rw [hS]
  rw [abs_le]
  push_neg
  intro h
  exfalso
  linarith

/-- C3 (amended): a gateway failure while fetching portfolio or quote data
is caught inside `validate_trade` and surfaced as an invalid validation
result, and `execute_trades` catches every per-recommendation error —
it always returns a value (`.ok`), never a propagated gateway error. -/
theorem claim_C3_gateway_errors_caught (rec : Recommendation) (client : Client)
    (config : Config) :
    (∀ e, client.getPortfolio = .error e → (validate_trade rec client config).valid = false) ∧
    (∀ recs, ∃ trades, execute_trades recs client config = .ok trades) := by
  constructor
  · intro e he
    by_cases hs : validate_symbol rec.symbol client
    · simp [validate_trade, hs, he, Bind.bind, Except.bind]
    · simp [validate_trade, hs]
  · intro recs
    unfold execute_trades
    dsimp only
    split
    · exact ⟨[], rfl⟩
    · exact ⟨_, rfl⟩

/-- Witness for C3 (amended) at a concrete failing gateway. -/
theorem claim_C3_gateway_errors_caught_witness :
    (validate_trade recBuyAAPL clientFailingPortfolio cfgAutoOn).valid = false ∧
    (∃ trades, execute_trades [recBuyAAPL] clientFailingPortfolio cfgAutoOn = .ok trades) :=
  ⟨(claim_C3_gateway_errors_caught recBuyAAPL clientFailingPortfolio cfgAutoOn).1
      "API Error" rfl,
   (claim_C3_gateway_errors_caught recBuyAAPL clientFailingPortfolio cfgAutoOn).2 [recBuyAAPL]⟩

/-- Counterexample to C3 as stated: a gateway whose `get_portfolio` raises;
`execute_trades` neither propagates the error nor aborts — it returns
`.ok []`, having skipped the recommendation. -/
theorem claim_C3_counterexample :
    clientFailingPortfolio.getPortfolio = .error "API Error" ∧
    execute_trades [recBuyAAPL] clientFailingPortfolio cfgAutoOn = .ok [] := by
  refine ⟨rfl, ?_⟩
  simp [execute_trades, cfgAutoOn, sortByPriorityDesc, List.insertionSort,
    executeTradesLoop, validate_trade, validate_symbol, clientFailingPortfolio, recBuyAAPL,
    Bind.bind, Except.bind, Pure.pure, Except.pure]


/-- The `"volatility_risk"` key is present from initialisation, so the
overall score is always computed by the five-factor formula, with the
volatility slot 0 unless historical data was supplied. -/
theorem portfolio_risk_overall_eq (pf : Portfolio) (hist : Option HistData) :
    dictGetD (calculate_portfolio_risk pf hist).1 "overall_risk_score" 0 =
      0.2 * calculate_diversification_risk pf + 0.2 * (calculate_concentration_risk pf : ℝ) +
      0.15 * (calculate_sector_risk pf : ℝ) + 0.25 * (calculate_market_risk pf : ℝ) +
      0.2 * (match hist with
             | some hd => if hd.isEmpty then 0 else calculate_volatility_risk pf hd
             | none => 0) := by
  cases hist with
  | none =>
    simp [calculate_portfolio_risk, dictSet, dictGetD, dictContains, List.lookup]
  | some hd =>
    by_cases he : hd.isEmpty <;>
      simp [calculate_portfolio_risk, dictSet, dictGetD, dictContains, List.lookup, he]

/-- The single position of `pfC1` carries weight 50 after construction. -/
theorem pfC1_positions :
    pfC1.positions = [⟨"AAPL", 1, "EQUITY", 50, 50, 50, some 1, none, 50⟩] := by
  norm_num [pfC1, mkPortfolio, calculatePositionWeights, positionFixture]

/-- Diversification risk of `pfC1`: base 80 (one position), no weight
spread, one asset class (+15). -/
theorem diversification_pfC1 : calculate_diversification_risk pfC1 = 95 := by
  have hstd : npStd [50] = 0 := by
    have hvar : npVariance [50] = 0 := by norm_num [npVariance]
    rw [npStd, hvar]
    simp
  simp [calculate_diversification_risk, pfC1_positions, hstd, min_def, max_def]
  norm_num

/-- Concentration risk of `pfC1`: single position ⇒ normalised HHI 1, plus
the over-10% penalty, capped at 100. -/
theorem concentration_pfC1 : calculate_concentration_risk pfC1 = 100 := by
  norm_num [calculate_concentration_risk, pfC1_positions, min_def]

/-- Sector risk of `pfC1`: one sector ("Unknown") ⇒ capped at 100. -/
theorem sector_pfC1 : calculate_sector_risk pfC1 = 100 := by
  norm_num [calculate_sector_risk, Portfolio.sectorAllocations, Portfolio.sectors,
    Position.getSector, pfC1_positions, pfC1, mkPortfolio, calculatePositionWeights,
    positionFixture, min_def]

/-- Market risk of `pfC1`: beta 1 renormalised over the covered half of the
portfolio ⇒ 50. -/
theorem market_pfC1 : calculate_market_risk pfC1 = 50 := by
  norm_num [calculate_market_risk, pfC1_positions, min_def, max_def]

/-- C1: at the failing input `pfC1` (one half-weight position, beta 1, no
historical data) the code's overall score is 66.5 — the five-factor formula
with a zero volatility slot — whereas the four-factor formula the claim
prescribes for the no-data case gives 83.75.  The `"volatility_risk"` key is
initialised into the metrics dict, so the membership test guarding the
recalculation is always true and the four-factor formula is dead code. -/
theorem claim_C1_overall_formula_divergence :
    dictGetD (calculate_portfolio_risk pfC1 none).1 "overall_risk_score" 0 = 66.5 ∧
    0.25 * calculate_diversification_risk pfC1 + 0.25 * (calculate_concentration_risk pfC1 : ℝ) +
      0.2 * (calculate_sector_risk pfC1 : ℝ) + 0.3 * (calculate_market_risk pfC1 : ℝ) = 83.75 ∧
    dictGetD (calculate_portfolio_risk pfC1 none).1 "overall_risk_score" 0 ≠
      0.25 * calculate_diversification_risk pfC1 +
        0.25 * (calculate_concentration_risk pfC1 : ℝ) +
        0.2 * (calculate_sector_risk pfC1 : ℝ) + 0.3 * (calculate_market_risk pfC1 : ℝ) := by
  have hcode : dictGetD (calculate_portfolio_risk pfC1 none).1 "overall_risk_score" 0 = 66.5 := by
    rw [portfolio_risk_overall_eq pfC1 none, diversification_pfC1, concentration_pfC1,
      sector_pfC1, market_pfC1]
    norm_num
  have hclaim : 0.25 * calculate_diversification_risk pfC1 +
      0.25 * (calculate_concentration_risk pfC1 : ℝ) +
      0.2 * (calculate_sector_risk pfC1 : ℝ) + 0.3 * (calculate_market_risk pfC1 : ℝ) = 83.75 := by
    rw [diversification_pfC1, concentration_pfC1, sector_pfC1, market_pfC1]
    norm_num
  refine ⟨hcode, hclaim, ?_⟩
  rw [hcode, hclaim]
  norm_num

/-- Dividing a mapped sum termwise by a constant. -/
theorem sum_map_div {α : Type} (l : List α) (f : α → ℚ) (d : ℚ) :
    (l.map (fun x => f x / d)).sum = (l.map f).sum / d := by
  induction l with
  | nil => simp
  | cons a t ih => simp [ih, add_div]

/-- Cauchy–Schwarz for lists: `(Σ x)² ≤ n · Σ x²`. -/
theorem sq_sum_le_length_mul_sum_sq (l : List ℚ) :
    (l.sum)^2 ≤ l.length * (l.map (fun x => x^2)).sum := by
  induction l with
  | nil => simp
  | cons a t ih =>
    simp only [List.sum_cons, List.map_cons, List.length_cons]
    push_cast
    have hq : 0 ≤ (t.map (fun x => x^2)).sum :=
      List.sum_nonneg (fun x hx => by
        obtain ⟨y, hy, rfl⟩ := List.mem_map.mp hx; positivity)
    have key : 2*a*t.sum ≤ (t.length:ℚ)*a^2 + (t.map (fun x => x^2)).sum := by
      rcases Nat.eq_zero_or_pos t.length with h0 | hpos
      · have ht : t = [] := List.length_eq_zero.mp h0
        subst ht
        simp
      · have hn' : (0:ℚ) < t.length := by exact_mod_cast hpos
        have h2 : 2*(t.length:ℚ)*a*t.sum ≤ ((t.length:ℚ))^2*a^2 + t.sum^2 := by
          nlinarith [sq_nonneg ((t.length:ℚ)*a - t.sum)]
        nlinarith [h2, ih, hn']
    nlinarith [key, ih, hq]

/-- Fractions summing to 1 have HHI at least `1/n`, so the normalised HHI is
nonnegative. -/
theorem normalized_hhi_nonneg (xs : List ℚ) (h1 : xs.sum = 1) (hn : 1 < xs.length) :
    0 ≤ ((xs.map (fun w => w^2)).sum - 1/(xs.length:ℚ)) / (1 - 1/(xs.length:ℚ)) := by
  have hnpos : (0:ℚ) < xs.length := by exact_mod_cast Nat.lt_of_lt_of_le Nat.zero_lt_one hn.le
  have hn1 : (1:ℚ) < xs.length := by exact_mod_cast hn
  have hcs := sq_sum_le_length_mul_sum_sq xs
  rw [h1] at hcs
  apply div_nonneg
  · rw [sub_nonneg, div_le_iff hnpos]
    nlinarith [hcs]
  · rw [sub_nonneg, div_le_one hnpos]
    linarith

/-- Summing an indicator over a duplicate-free list containing the key. -/
theorem sum_map_ite_eq (K : List String) (s₀ : String) (v : ℚ) (hnd : K.Nodup)
    (hmem : s₀ ∈ K) : (K.map (fun s => if s₀ = s then v else 0)).sum = v := by
  induction K with
  | nil => cases hmem
  | cons a t ih =>
    rcases List.mem_cons.mp hmem with rfl | hmem'
    · simp only [List.map_cons, List.sum_cons]
      have hz : (t.map (fun s => if s₀ = s then v else 0)).sum = 0 := by
        apply List.sum_eq_zero
        intro x hx
        obtain ⟨s, hs, rfl⟩ := List.mem_map.mp hx
        apply if_neg
        intro h
        subst h
        exact (List.nodup_cons.mp hnd).1 hs
      rw [hz, add_zero]
      simp
    · have hne : ¬ (s₀ = a) := by
        intro h
        subst h
        exact (List.nodup_cons.mp hnd).1 hmem'
      simp only [List.map_cons, List.sum_cons, if_neg hne, zero_add]
      exact ih (List.nodup_cons.mp hnd).2 hmem'

/-- Peeling the head off a sector-filtered sum. -/
theorem filter_sector_cons_sum (p : Position) (t : List Position) (s : String)
    (f : Position → ℚ) :
    (((p :: t).filter (fun q => q.getSector == s)).map f).sum
      = (if p.getSector = s then f p else 0)
        + ((t.filter (fun q => q.getSector == s)).map f).sum := by
  by_cases h : p.getSector = s <;> simp [List.filter_cons, h]

/-- Grouping a sum over positions by sector tag: summing the per-sector
filtered totals over the distinct sectors recovers the total. -/
theorem sum_sector_partition (l : List Position) (f : Position → ℚ) :
    ((l.map Position.getSector).dedup.map
      (fun s => ((l.filter (fun q => q.getSector == s)).map f).sum)).sum
      = (l.map f).sum := by
  induction l with
  | nil => simp
  | cons p t ih =>
    simp only [List.map_cons]
    by_cases hmem : p.getSector ∈ t.map Position.getSector
    · rw [List.dedup_cons_of_mem hmem]
      simp only [filter_sector_cons_sum, List.sum_map_add]
      rw [sum_map_ite_eq _ _ _ (List.nodup_dedup _) (List.mem_dedup.mpr hmem), ih,
        List.sum_cons]
    · rw [List.dedup_cons_of_not_mem hmem]
      simp only [List.map_cons, List.sum_cons, filter_sector_cons_sum, List.sum_map_add]
      have hz : ((t.map Position.getSector).dedup.map
          (fun s => if p.getSector = s then f p else 0)).sum = 0 := by
        apply List.sum_eq_zero
        intro x hx
        obtain ⟨s, hs, rfl⟩ := List.mem_map.mp hx
        apply if_neg
        intro h
        subst h
        exact hmem (List.mem_dedup.mp hs)
      have hfilter : t.filter (fun q => q.getSector == p.getSector) = [] := by
        rw [List.filter_eq_nil_iff]
        intro q hq hbeq
        have : q.getSector = p.getSector := beq_iff_eq.mp hbeq
        exact hmem (this ▸ List.mem_map_of_mem Position.getSector hq)
      rw [hz, ih, hfilter]
      simp

/-- Market risk is clamped into [0,100] (sentinel 50 included). -/
theorem market_risk_bounds (pf : Portfolio) :
    0 ≤ calculate_market_risk pf ∧ calculate_market_risk pf ≤ 100 := by
  simp only [calculate_market_risk]
  split
  · norm_num
  · exact ⟨le_max_left _ _, max_le (by norm_num) (min_le_right _ _)⟩

/-- Volatility risk is clamped into [0,100] (sentinel 50 included). -/
theorem volatility_risk_bounds (pf : Portfolio) (hd : HistData) :
    0 ≤ calculate_volatility_risk pf hd ∧ calculate_volatility_risk pf hd ≤ 100 := by
  simp only [calculate_volatility_risk]
  split
  · norm_num
  · exact ⟨le_max_left _ _, max_le (by norm_num) (min_le_right _ _)⟩

/-- Diversification risk lies in [0,100] for every portfolio. -/
theorem diversification_risk_bounds (pf : Portfolio) :
    0 ≤ calculate_diversification_risk pf ∧ calculate_diversification_risk pf ≤ 100 := by
  simp only [calculate_diversification_risk]
  split
  · norm_num
  · constructor
    · apply le_min _ (by norm_num)
      have hbase : (0:ℝ) ≤ (if 20 ≤ pf.positions.length then (0:ℝ)
          else if 15 ≤ pf.positions.length then 20
          else if 10 ≤ pf.positions.length then 40
          else if 5 ≤ pf.positions.length then 60 else 80) := by
        split_ifs <;> norm_num
      have hstd : (0:ℝ) ≤ min (npStd (pf.positions.map Position.weight) * 2) 20 :=
        le_min (mul_nonneg (Real.sqrt_nonneg _) (by norm_num)) (by norm_num)
      have hatf : (0:ℝ) ≤ max 0 (20 - ((pf.positions.map Position.assetType).dedup.length : ℝ) * 5) :=
        le_max_left _ _
      exact add_nonneg (add_nonneg hbase hstd) hatf
    · exact min_le_right _ _

/-- Concentration risk never exceeds 100. -/
theorem concentration_risk_le (pf : Portfolio) : calculate_concentration_risk pf ≤ 100 := by
  simp only [calculate_concentration_risk]
  split
  · norm_num
  · exact min_le_right _ _

/-- Sector risk never exceeds 100. -/
theorem sector_risk_le (pf : Portfolio) : calculate_sector_risk pf ≤ 100 := by
  simp only [calculate_sector_risk]
  split
  · norm_num
  · exact min_le_right _ _

/-- When the position weight fractions sum to 1 (fully invested portfolio),
the concentration risk is nonnegative. -/
theorem concentration_risk_nonneg (pf : Portfolio)
    (h1 : (pf.positions.map (fun p => p.weight / 100)).sum = 1) :
    0 ≤ calculate_concentration_risk pf := by
  have hne : pf.positions ≠ [] := by
    intro h
    rw [h] at h1
    simp at h1
  have hpen : 0 ≤ (pf.positions.map (fun p =>
      if 10 < p.weight then (p.weight - 10) * 2 else 0)).sum := by
    apply List.sum_nonneg
    intro x hx
    obtain ⟨p, hp, rfl⟩ := List.mem_map.mp hx
    split <;> rename_i h <;> [linarith; exact le_refl 0]
  have hnpos : 0 < pf.positions.length := List.length_pos.mpr hne
  simp only [calculate_concentration_risk, if_neg hne, if_pos hnpos]
  apply le_min _ (by norm_num)
  by_cases hgt : 1 < pf.positions.length
  · rw [if_pos hgt]
    have hnn := normalized_hhi_nonneg (pf.positions.map (fun p => p.weight / 100)) h1
      (by simpa using hgt)
    rw [List.map_map] at hnn
    simp only [List.length_map] at hnn
    have : (0:ℚ) ≤ ((pf.positions.map ((fun w => w ^ 2) ∘ fun p => p.weight / 100)).sum -
        1 / (pf.positions.length:ℚ)) / (1 - 1 / (pf.positions.length:ℚ)) * 100 :=
      mul_nonneg hnn (by norm_num)
    calc (0:ℚ) ≤ _ := add_nonneg this hpen
      _ = _ := by rw [List.map_map]
  · rw [if_neg hgt]
    linarith

/-- When the sector allocation fractions sum to 1, the sector risk is
nonnegative. -/
theorem sector_risk_nonneg (pf : Portfolio) (hne : pf.positions ≠ [])
    (h1 : (pf.sectorAllocations.map (fun a => a.2 / 100)).sum = 1) :
    0 ≤ calculate_sector_risk pf := by
  have hpen : 0 ≤ (pf.sectorAllocations.map (fun a =>
      if 25 < a.2 then (a.2 - 25) * 3 else 0)).sum := by
    apply List.sum_nonneg
    intro x hx
    obtain ⟨a, ha, rfl⟩ := List.mem_map.mp hx
    split <;> rename_i h <;> [linarith; exact le_refl 0]
  have hlen : pf.sectorAllocations ≠ [] := by
    intro h
    rw [h] at h1
    simp at h1
  have hnpos : 0 < pf.sectorAllocations.length := List.length_pos.mpr hlen
  simp only [calculate_sector_risk, if_neg hne, if_pos hnpos]
  apply le_min _ (by norm_num)
  by_cases hgt : 1 < pf.sectorAllocations.length
  · rw [if_pos hgt]
    have hnn := normalized_hhi_nonneg (pf.sectorAllocations.map (fun a => a.2 / 100)) h1
      (by simpa using hgt)
    rw [List.map_map] at hnn
    simp only [List.length_map] at hnn
    have : (0:ℚ) ≤ ((pf.sectorAllocations.map ((fun w => w ^ 2) ∘ fun a => a.2 / 100)).sum -
        1 / (pf.sectorAllocations.length:ℚ)) / (1 - 1 / (pf.sectorAllocations.length:ℚ)) * 100 :=
      mul_nonneg hnn (by norm_num)
    calc (0:ℚ) ≤ _ := add_nonneg this hpen
      _ = _ := by rw [List.map_map]
  · rw [if_neg hgt]
    linarith

/-- Weight stamping does not change market values. -/
theorem map_mv_calculatePositionWeights (ps : List Position) (av : ℚ) :
    (calculatePositionWeights ps av).map Position.marketValue
      = ps.map Position.marketValue := by
  simp only [calculatePositionWeights]
  split <;> (rw [List.map_map]; rfl)

/-- Weight stamping does not change sector tags. -/
theorem map_sector_calculatePositionWeights (ps : List Position) (av : ℚ) :
    (calculatePositionWeights ps av).map Position.getSector
      = ps.map Position.getSector := by
  simp only [calculatePositionWeights]
  split <;> (rw [List.map_map]; rfl)

/-- For a constructed, fully invested portfolio the weight fractions sum
to 1. -/
theorem weights_fraction_sum (accId : String) (ps : List Position) (av cash : ℚ)
    (hav : 0 < av) (hsum : (ps.map Position.marketValue).sum = av) :
    ((mkPortfolio accId ps av cash).positions.map (fun p => p.weight / 100)).sum = 1 := by
  have hne : av ≠ 0 := ne_of_gt hav
  have hpos : (mkPortfolio accId ps av cash).positions = calculatePositionWeights ps av := rfl
  rw [hpos, calculatePositionWeights, if_neg hne, List.map_map]
  have hfun : ((fun p : Position => p.weight / 100) ∘
      (fun p : Position => { p with weight := p.marketValue / av * 100 }))
      = fun p : Position => p.marketValue / av := by
    funext p
    show p.marketValue / av * 100 / 100 = p.marketValue / av
    rw [mul_div_assoc]
    norm_num
  rw [hfun, sum_map_div, hsum, div_self hne]

/-- For a constructed, fully invested portfolio the sector allocation
fractions sum to 1. -/
theorem sector_fraction_sum (accId : String) (ps : List Position) (av cash : ℚ)
    (hav : 0 < av) (hsum : (ps.map Position.marketValue).sum = av) :
    ((mkPortfolio accId ps av cash).positions ≠ []) ∧
    ((mkPortfolio accId ps av cash).sectorAllocations.map (fun a => a.2 / 100)).sum = 1 := by
  have hne : av ≠ 0 := ne_of_gt hav
  have hpsne : ps ≠ [] := by
    intro h
    subst h
    simp at hsum
    exact absurd hsum.symm (ne_of_gt hav)
  set pf := mkPortfolio accId ps av cash with hpf
  have hposne : pf.positions ≠ [] := by
    rw [hpf]
    show calculatePositionWeights ps av ≠ []
    rw [calculatePositionWeights, if_neg hne]
    simpa using hpsne
  refine ⟨hposne, ?_⟩
  have hav' : 0 < pf.accountValue := hav
  have hmv : (pf.positions.map Position.marketValue).sum = av := by
    show ((calculatePositionWeights ps av).map Position.marketValue).sum = av
    rw [map_mv_calculatePositionWeights, hsum]
  rw [Portfolio.sectorAllocations, List.map_map]
  have hfun : ((fun a : String × ℚ => a.2 / 100) ∘ (fun s =>
      (s, if 0 < pf.accountValue then
        ((pf.positions.filter (fun p => p.getSector == s)).map Position.marketValue).sum
          / pf.accountValue * 100 else 0)))
      = fun s => ((pf.positions.filter (fun p => p.getSector == s)).map
          Position.marketValue).sum / pf.accountValue := by
    funext s
    show (if 0 < pf.accountValue then _ / pf.accountValue * 100 else 0) / 100 = _
    rw [if_pos hav', mul_div_assoc]
    norm_num
  rw [hfun]
  rw [Portfolio.sectors]
  rw [sum_map_div, sum_sector_partition, hmv]
  show av / pf.accountValue = 1
  have : pf.accountValue = av := rfl
  rw [this, div_self hne]

/-- C2 (amended): for a freshly constructed, fully invested portfolio
(`account_value` = total market value > 0), the diversification,
concentration, sector and volatility risk scores and the overall risk score
all lie in [0,100].  (Without full investment the concentration and sector
scores can be negative — see the counterexample.) -/
theorem claim_C2_risk_scores_in_range (accId : String) (ps : List Position) (av cash : ℚ)
    (hav : 0 < av) (hsum : (ps.map Position.marketValue).sum = av)
    (hist : Option HistData) (hd : HistData) :
    (0 ≤ calculate_diversification_risk (mkPortfolio accId ps av cash) ∧
      calculate_diversification_risk (mkPortfolio accId ps av cash) ≤ 100) ∧
    (0 ≤ calculate_concentration_risk (mkPortfolio accId ps av cash) ∧
      calculate_concentration_risk (mkPortfolio accId ps av cash) ≤ 100) ∧
    (0 ≤ calculate_sector_risk (mkPortfolio accId ps av cash) ∧
      calculate_sector_risk (mkPortfolio accId ps av cash) ≤ 100) ∧
    (0 ≤ calculate_volatility_risk (mkPortfolio accId ps av cash) hd ∧
      calculate_volatility_risk (mkPortfolio accId ps av cash) hd ≤ 100) ∧
    (0 ≤ dictGetD (calculate_portfolio_risk (mkPortfolio accId ps av cash) hist).1
        "overall_risk_score" 0 ∧
      dictGetD (calculate_portfolio_risk (mkPortfolio accId ps av cash) hist).1
        "overall_risk_score" 0 ≤ 100) := by
  have hdiv := diversification_risk_bounds (mkPortfolio accId ps av cash)
  have hconc : 0 ≤ calculate_concentration_risk (mkPortfolio accId ps av cash) :=
    concentration_risk_nonneg _ (weights_fraction_sum accId ps av cash hav hsum)
  have hconc' := concentration_risk_le (mkPortfolio accId ps av cash)
  obtain ⟨hposne, hsecsum⟩ := sector_fraction_sum accId ps av cash hav hsum
  have hsec : 0 ≤ calculate_sector_risk (mkPortfolio accId ps av cash) :=
    sector_risk_nonneg _ hposne hsecsum
  have hsec' := sector_risk_le (mkPortfolio accId ps av cash)
  have hvol := volatility_risk_bounds (mkPortfolio accId ps av cash) hd
  have hmkt := market_risk_bounds (mkPortfolio accId ps av cash)
  refine ⟨hdiv, ⟨hconc, hconc'⟩, ⟨hsec, hsec'⟩, hvol, ?_⟩
  rw [portfolio_risk_overall_eq]
  have hvterm : (0:ℝ) ≤ (match hist with
      | some hd' => if hd'.isEmpty then 0 else
          calculate_volatility_risk (mkPortfolio accId ps av cash) hd'
      | none => 0) ∧ (match hist with
      | some hd' => if hd'.isEmpty then 0 else
          calculate_volatility_risk (mkPortfolio accId ps av cash) hd'
      | none => (0:ℝ)) ≤ 100 := by
    cases hist with
    | none => norm_num
    | some hd' =>
      by_cases he : hd'.isEmpty
      · simp [he]
      · simpa [he] using volatility_risk_bounds (mkPortfolio accId ps av cash) hd'
  have hcR : (0:ℝ) ≤ (calculate_concentration_risk (mkPortfolio accId ps av cash) : ℝ) ∧
      ((calculate_concentration_risk (mkPortfolio accId ps av cash) : ℝ)) ≤ 100 := by
    constructor <;> exact_mod_cast (by first | exact hconc | exact hconc')
  have hsR : (0:ℝ) ≤ (calculate_sector_risk (mkPortfolio accId ps av cash) : ℝ) ∧
      ((calculate_sector_risk (mkPortfolio accId ps av cash) : ℝ)) ≤ 100 := by
    constructor <;> exact_mod_cast (by first | exact hsec | exact hsec')
  have hmR : (0:ℝ) ≤ (calculate_market_risk (mkPortfolio accId ps av cash) : ℝ) ∧
      ((calculate_market_risk (mkPortfolio accId ps av cash) : ℝ)) ≤ 100 := by
    constructor <;> exact_mod_cast (by first | exact hmkt.1 | exact hmkt.2)
  constructor <;> nlinarith [hdiv.1, hdiv.2, hcR.1, hcR.2, hsR.1, hsR.2, hmR.1, hmR.2,
    hvterm.1, hvterm.2]

/-- Witness for C2 at a concrete fully invested two-position portfolio. -/
theorem claim_C2_risk_scores_in_range_witness :
    (0:ℚ) < 100 ∧ (psHalf.map Position.marketValue).sum = 100 ∧
    ((0 ≤ calculate_diversification_risk (mkPortfolio "ACC" psHalf 100 0) ∧
      calculate_diversification_risk (mkPortfolio "ACC" psHalf 100 0) ≤ 100) ∧
    (0 ≤ calculate_concentration_risk (mkPortfolio "ACC" psHalf 100 0) ∧
      calculate_concentration_risk (mkPortfolio "ACC" psHalf 100 0) ≤ 100) ∧
    (0 ≤ calculate_sector_risk (mkPortfolio "ACC" psHalf 100 0) ∧
      calculate_sector_risk (mkPortfolio "ACC" psHalf 100 0) ≤ 100) ∧
    (0 ≤ calculate_volatility_risk (mkPortfolio "ACC" psHalf 100 0) [] ∧
      calculate_volatility_risk (mkPortfolio "ACC" psHalf 100 0) [] ≤ 100) ∧
    (0 ≤ dictGetD (calculate_portfolio_risk (mkPortfolio "ACC" psHalf 100 0) none).1
        "overall_risk_score" 0 ∧
      dictGetD (calculate_portfolio_risk (mkPortfolio "ACC" psHalf 100 0) none).1
        "overall_risk_score" 0 ≤ 100)) :=
  ⟨by norm_num, by norm_num [psHalf, positionFixture],
   claim_C2_risk_scores_in_range "ACC" psHalf 100 0 (by norm_num)
     (by norm_num [psHalf, positionFixture]) none []⟩

/-- Counterexample to C2 as stated: in a mostly-cash portfolio with two 1%
positions the concentration risk is −99.96, far below the claimed [0,100]
range. -/
theorem claim_C2_counterexample : calculate_concentration_risk pfTiny < 0 := by
  have hps : pfTiny.positions = [⟨"AAA", 1, "EQUITY", 1, 1, 1, none, none, 1⟩,
      ⟨"BBB", 1, "EQUITY", 1, 1, 1, none, none, 1⟩] := by
    norm_num [pfTiny, mkPortfolio, calculatePositionWeights, positionFixture]
  norm_num [calculate_concentration_risk, hps, min_def]
  simp

/-- The HHI of the percent weights is the raw HHI divided by 10000. -/
theorem hhi_div100 (ws : List ℚ) :
    ((ws.map (fun w => w / 100)).map (fun w => w^2)).sum
      = (ws.map (fun w => w^2)).sum / 10000 := by
  rw [List.map_map]
  have h : ((fun w : ℚ => w^2) ∘ fun w => w / 100) = fun w : ℚ => (w^2) / 10000 := by
    funext w
    show (w / 100)^2 = w^2 / 10000
    ring
  rw [h, sum_map_div]

/-- Scaling every entry by `c` scales the sum of squares by `c²`. -/
theorem sum_sq_scale (l : List ℚ) (c : ℚ) :
    ((l.map (fun w => w * c)).map (fun w => w^2)).sum
      = c^2 * (l.map (fun w => w^2)).sum := by
  rw [List.map_map]
  have h : ((fun w : ℚ => w^2) ∘ fun w => w * c) = fun w : ℚ => c^2 * w^2 := by
    funext w
    show (w * c)^2 = c^2 * w^2
    ring
  rw [h, List.sum_map_mul_left]

/-- Each over-10% penalty term is nonnegative. -/
theorem pen_term_nonneg (w : ℚ) : 0 ≤ (if 10 < w then (w - 10) * 2 else 0) := by
  split <;> rename_i h
  · linarith
  · exact le_refl 0

/-- Penalty sums are nonnegative. -/
theorem pen_sum_nonneg (l : List ℚ) :
    0 ≤ (l.map (fun w => if 10 < w then (w - 10) * 2 else 0)).sum := by
  apply List.sum_nonneg
  intro x hx
  obtain ⟨w, hw, rfl⟩ := List.mem_map.mp hx
  exact pen_term_nonneg w

/-- Penalty sums vanish when every weight is at most 10. -/
theorem pen_sum_zero (l : List ℚ) (h : ∀ w ∈ l, w ≤ 10) :
    (l.map (fun w => if 10 < w then (w - 10) * 2 else 0)).sum = 0 := by
  apply List.sum_eq_zero
  intro x hx
  obtain ⟨w, hw, rfl⟩ := List.mem_map.mp hx
  exact if_neg (not_lt.mpr (h w hw))

/-- Shrinking a weight by a factor `c ∈ [0,1]` lowers its penalty by at
most `2(1−c)` times the weight. -/
theorem pen_scale_le (w c : ℚ) (hc0 : 0 ≤ c) (hc1 : c ≤ 1) (hw : 0 ≤ w) :
    (if 10 < w then (w - 10) * 2 else 0) - (if 10 < w * c then (w * c - 10) * 2 else 0)
      ≤ 2 * (1 - c) * w := by
  have hcw : w * c ≤ w := by nlinarith
  split_ifs with h1 h2 h2 <;> nlinarith

/-- Summed version of `pen_scale_le`. -/
theorem pen_sum_scale (rest : List ℚ) (c : ℚ) (hc0 : 0 ≤ c) (hc1 : c ≤ 1)
    (hw : ∀ w ∈ rest, 0 ≤ w) :
    (rest.map (fun w => if 10 < w then (w - 10) * 2 else 0)).sum
      - ((rest.map (fun w => w * c)).map (fun w => if 10 < w then (w - 10) * 2 else 0)).sum
      ≤ 2 * (1 - c) * rest.sum := by
  induction rest with
  | nil => simp
  | cons a t ih =>
    simp only [List.map_cons, List.sum_cons]
    have hih := ih (fun w hw' => hw w (List.mem_cons_of_mem a hw'))
    have hpt := pen_scale_le a c hc0 hc1 (hw a (List.mem_cons_self a t))
    nlinarith [hih, hpt]

/-- Core HHI inequality: growing the largest raw weight from `a` to `a'`
while the rest (total `T`, sum of squares `Q ≤ aT`) shrinks by the factor
`(a + T − a')/T` does not decrease the sum of squares. -/
theorem hhi_scale_ge (a a' T Q : ℚ) (ha : 0 ≤ a) (haa' : a ≤ a') (hT : 0 ≤ T)
    (ha'S : a' ≤ a + T) (hQ0 : 0 ≤ Q) (hQ : Q ≤ a * T) :
    a^2 + Q ≤ a'^2 + ((a + T - a') / T)^2 * Q := by
  rcases eq_or_lt_of_le hT with hT0 | hTpos
  · have hQz : Q = 0 := le_antisymm (by nlinarith) hQ0
    subst hQz
    nlinarith
  · set c : ℚ := (a + T - a') / T with hc
    have hcT : c * T = a + T - a' := div_mul_cancel₀ _ (ne_of_gt hTpos)
    have hc0 : 0 ≤ c := div_nonneg (by linarith) hT
    have hc1 : c ≤ 1 := by
      rw [hc, div_le_one hTpos]
      linarith
    have h5 : (1 - c^2) * a * T = a * (1 + c) * (a' - a) := by
      have hTc : T - c * T = a' - a := by linarith [hcT]
      linear_combination (a * (1 + c)) * hTc
    have hint1 : 0 ≤ (a' - a) * (a' - a * c) := by
      apply mul_nonneg (by linarith)
      nlinarith [mul_le_of_le_one_right ha hc1]
    have hint2 : 0 ≤ (1 - c^2) * (a * T - Q) := by
      apply mul_nonneg _ (by linarith)
      nlinarith
    nlinarith [h5, hint1, hint2]

/-- Sum-of-squares bound when every entry lies in `[0, a]`. -/
theorem sum_sq_le (l : List ℚ) (a : ℚ) (h : ∀ w ∈ l, 0 ≤ w ∧ w ≤ a) :
    (l.map (fun w => w^2)).sum ≤ a * l.sum := by
  induction l with
  | nil => simp
  | cons x t ih =>
    simp only [List.map_cons, List.sum_cons]
    have hx := h x (List.mem_cons_self x t)
    have hih := ih (fun w hw => h w (List.mem_cons_of_mem x hw))
    nlinarith [hx.1, hx.2, hih]

/-- Entries of a nonnegative list with zero sum are all zero. -/
theorem eq_zero_of_sum_zero (l : List ℚ) (h0 : ∀ w ∈ l, 0 ≤ w) (hs : l.sum = 0) :
    ∀ w ∈ l, w = 0 := by
  intro w hw
  have h1 : w ≤ l.sum := List.single_le_sum h0 w hw
  have h2 := h0 w hw
  rw [hs] at h1
  linarith

/-- Closed form of `concentrationOfWeights` on a cons cell with a nonempty
tail. -/
theorem concentrationOfWeights_cons_eval (x : ℚ) (l : List ℚ) (hl : l ≠ []) :
    concentrationOfWeights (x :: l) =
      min ((((x^2 + (l.map (fun w => w^2)).sum) / 10000 - 1 / ((l.length : ℚ) + 1)) /
        (1 - 1 / ((l.length : ℚ) + 1))) * 100 +
        ((if 10 < x then (x - 10) * 2 else 0) +
          (l.map (fun w => if 10 < w then (w - 10) * 2 else 0)).sum)) 100 := by
  have hpos : 0 < l.length := List.length_pos.mpr hl
  have h1 : 1 < l.length + 1 := by omega
  have h0 : 0 < l.length + 1 := by omega
  simp only [concentrationOfWeights, if_neg (List.cons_ne_nil x l), List.length_cons,
    if_pos h0, if_pos h1, hhi_div100, List.map_cons, List.sum_cons]
  push_cast
  congr 1
  ring

/-- Growing the (weakly) largest weight while the rest shrink
proportionally does not decrease `concentrationOfWeights`. -/
theorem concentrationOfWeights_cons_le (a a' : ℚ) (rest : List ℚ)
    (ha : 0 ≤ a) (hrest : ∀ w ∈ rest, 0 ≤ w ∧ w ≤ a)
    (haa' : a ≤ a') (ha'S : a' ≤ a + rest.sum) :
    concentrationOfWeights (a :: rest)
      ≤ concentrationOfWeights
          (a' :: rest.map (fun w => w * ((a + rest.sum - a') / rest.sum))) := by
  rcases eq_or_ne rest [] with hrnil | hrnil
  · subst hrnil
    simp only [List.sum_nil, add_zero] at ha'S
    have haa : a' = a := le_antisymm ha'S haa'
    subst haa
    simp
  · set T := rest.sum with hT
    set c : ℚ := (a + T - a') / T with hc
    have hT0 : 0 ≤ T := List.sum_nonneg (fun w hw => (hrest w hw).1)
    have hrest' : rest.map (fun w => w * c) ≠ [] := by simpa using hrnil
    rcases eq_or_lt_of_le hT0 with hTz | hTpos
    · have hz := eq_zero_of_sum_zero rest (fun w hw => (hrest w hw).1) hTz.symm
      have ha'a : a' ≤ a := by
        have := ha'S
        rw [← hTz] at this
        simpa using this
      have haa : a' = a := le_antisymm ha'a haa'
      subst haa
      have hmap : rest.map (fun w => w * c) = rest := by
        have h1 : rest.map (fun w => w * c) = rest.map id :=
          List.map_congr_left (fun w hw => by rw [hz w hw]; simp)
        rw [h1, List.map_id]
      rw [hmap]
    · have hc0 : 0 ≤ c := div_nonneg (by linarith) hT0
      have hc1 : c ≤ 1 := by
        rw [hc, div_le_one hTpos]
        linarith
      have hcT : (1 - c) * T = a' - a := by
        rw [hc]
        field_simp
        ring
      have hQ0 : 0 ≤ (rest.map (fun w => w^2)).sum :=
        List.sum_nonneg (fun x hx => by
          obtain ⟨w, hw, rfl⟩ := List.mem_map.mp hx; positivity)
      have hQ : (rest.map (fun w => w^2)).sum ≤ a * T := sum_sq_le rest a hrest
      rw [concentrationOfWeights_cons_eval a rest hrnil,
        concentrationOfWeights_cons_eval a' _ hrest']
      simp only [List.length_map]
      apply min_le_min _ (le_refl 100)
      set n : ℚ := (rest.length : ℚ) + 1 with hn
      have hn2 : (2:ℚ) ≤ n := by
        have h1 : 1 ≤ rest.length := List.length_pos.mpr hrnil
        have h1' : (1:ℚ) ≤ (rest.length : ℚ) := by exact_mod_cast h1
        rw [hn]
        linarith
      have hden : 0 < 1 - 1/n := by
        have hnpos : (0:ℚ) < n := by linarith
        rw [sub_pos, div_lt_one hnpos]
        linarith
      have hhhi : a^2 + (rest.map (fun w => w^2)).sum
          ≤ a'^2 + ((rest.map (fun w => w * c)).map (fun w => w^2)).sum := by
        rw [sum_sq_scale]
        exact hhi_scale_ge a a' T _ ha haa' hT0 ha'S hQ0 hQ
      have hpen : (if 10 < a then (a - 10) * 2 else 0)
            + (rest.map (fun w => if 10 < w then (w - 10) * 2 else 0)).sum
          ≤ (if 10 < a' then (a' - 10) * 2 else 0)
            + ((rest.map (fun w => w * c)).map
                (fun w => if 10 < w then (w - 10) * 2 else 0)).sum := by
        by_cases h10 : 10 < a
        · have h10' : 10 < a' := lt_of_lt_of_le h10 haa'
          have hps := pen_sum_scale rest c hc0 hc1 (fun w hw => (hrest w hw).1)
          rw [if_pos h10, if_pos h10']
          nlinarith [hps, hcT]
        · have hz1 : (rest.map (fun w => if 10 < w then (w - 10) * 2 else 0)).sum = 0 :=
            pen_sum_zero rest (fun w hw => le_trans (hrest w hw).2 (not_lt.mp h10))
          rw [if_neg h10, hz1]
          have hp1 := pen_term_nonneg a'
          have hp2 := pen_sum_nonneg (rest.map (fun w => w * c))
          linarith
      have hnorm : ((a^2 + (rest.map (fun w => w^2)).sum) / 10000 - 1/n) / (1 - 1/n)
          ≤ ((a'^2 + ((rest.map (fun w => w * c)).map (fun w => w^2)).sum) / 10000 - 1/n)
            / (1 - 1/n) := by
        rw [div_le_div_iff hden hden]
        have hsub : (a^2 + (rest.map (fun w => w^2)).sum) / 10000 - 1/n
            ≤ (a'^2 + ((rest.map (fun w => w * c)).map (fun w => w^2)).sum) / 10000 - 1/n := by
          linarith [hhhi]
        nlinarith [hsub, hden]
      linarith [hnorm, hpen]

/-- `calculate_concentration_risk` reads nothing of the portfolio but the
stored weight list. -/
theorem concentration_eq_of_weights (pf : Portfolio) :
    calculate_concentration_risk pf
      = concentrationOfWeights (pf.positions.map Position.weight) := by
  simp only [calculate_concentration_risk, concentrationOfWeights, List.map_map,
    List.length_map, List.map_eq_nil_iff]
  rfl

/-- `concentrationOfWeights` is invariant under permutation of the weights. -/
theorem concentrationOfWeights_perm {ws₁ ws₂ : List ℚ} (h : ws₁.Perm ws₂) :
    concentrationOfWeights ws₁ = concentrationOfWeights ws₂ := by
  have hhhi : ((ws₁.map (fun w => w / 100)).map (fun w => w^2)).sum
      = ((ws₂.map (fun w => w / 100)).map (fun w => w^2)).sum :=
    List.Perm.sum_eq ((h.map _).map _)
  have hpen : (ws₁.map (fun w => if 10 < w then (w - 10) * 2 else 0)).sum
      = (ws₂.map (fun w => if 10 < w then (w - 10) * 2 else 0)).sum :=
    List.Perm.sum_eq (h.map _)
  have hlen := h.length_eq
  by_cases hnil : ws₁ = []
  · subst hnil
    rw [List.Perm.eq_nil h.symm]
  · have hnil2 : ws₂ ≠ [] := fun e => hnil (List.Perm.eq_nil (e ▸ h))
    simp only [concentrationOfWeights, if_neg hnil, if_neg hnil2, hhhi, hpen, hlen]

/-- C6 (amended): the concentration risk does not decrease when a single
position's weight grows while all other positions shrink proportionally,
provided the grown position is (weakly) the largest.  The weight lists are
given up to permutation, covering any position of the grown weight. -/
theorem claim_C6_concentration_monotone (pf pf' : Portfolio) (a a' : ℚ) (rest : List ℚ)
    (hw : (pf.positions.map Position.weight).Perm (a :: rest))
    (hw' : (pf'.positions.map Position.weight).Perm
      (a' :: rest.map (fun w => w * ((a + rest.sum - a') / rest.sum))))
    (ha : 0 ≤ a) (hrest : ∀ w ∈ rest, 0 ≤ w ∧ w ≤ a)
    (haa' : a ≤ a') (ha'S : a' ≤ a + rest.sum) :
    calculate_concentration_risk pf ≤ calculate_concentration_risk pf' := by
  rw [concentration_eq_of_weights pf, concentration_eq_of_weights pf',
    concentrationOfWeights_perm hw, concentrationOfWeights_perm hw']
  exact concentrationOfWeights_cons_le a a' rest ha hrest haa' ha'S

/-- Witness for C6 at concrete weights: (9, 2, 9) with the largest grown to
11 and the others scaled by 9/11. -/
theorem claim_C6_concentration_monotone_witness :
    ((pfGrowBefore.positions.map Position.weight).Perm (9 :: [2, 9]) ∧
     (pfGrowLargest.positions.map Position.weight).Perm
       (11 :: ([2, 9] : List ℚ).map
         (fun w => w * ((9 + ([2, 9] : List ℚ).sum - 11) / ([2, 9] : List ℚ).sum))) ∧
     (0:ℚ) ≤ 9 ∧ (∀ w ∈ ([2, 9] : List ℚ), 0 ≤ w ∧ w ≤ 9) ∧ (9:ℚ) ≤ 11 ∧
     (11:ℚ) ≤ 9 + ([2, 9] : List ℚ).sum) ∧
    calculate_concentration_risk pfGrowBefore
      ≤ calculate_concentration_risk pfGrowLargest := by
  have hw : (pfGrowBefore.positions.map Position.weight).Perm (9 :: [2, 9]) := by
    have h : pfGrowBefore.positions.map Position.weight = [2, 9, 9] := by
      norm_num [pfGrowBefore, weightFixture]
    rw [h]
    exact List.Perm.swap' 9 2 (List.Perm.refl [9])
  have hw' : (pfGrowLargest.positions.map Position.weight).Perm
      (11 :: ([2, 9] : List ℚ).map
        (fun w => w * ((9 + ([2, 9] : List ℚ).sum - 11) / ([2, 9] : List ℚ).sum))) := by
    have h1 : pfGrowLargest.positions.map Position.weight = [11, 18/11, 81/11] := by
      norm_num [pfGrowLargest, weightFixture]
    have h2 : (11 :: ([2, 9] : List ℚ).map
        (fun w => w * ((9 + ([2, 9] : List ℚ).sum - 11) / ([2, 9] : List ℚ).sum)))
        = [11, 18/11, 81/11] := by
      norm_num
    rw [h1, h2]
  have hrest : ∀ w ∈ ([2, 9] : List ℚ), 0 ≤ w ∧ w ≤ 9 := by
    intro w hw
    fin_cases hw <;> norm_num
  exact ⟨⟨hw, hw', by norm_num, hrest, by norm_num, by norm_num⟩,
    claim_C6_concentration_monotone pfGrowBefore pfGrowLargest 9 11 [2, 9] hw hw'
      (by norm_num) hrest (by norm_num) (by norm_num)⟩

/-- Counterexample to C6 as stated: growing the small position of
(2, 9, 9) to 4 while the others shrink proportionally to 8 strictly
decreases the concentration risk. -/
theorem claim_C6_counterexample :
    pfGrowBefore.positions.map Position.weight = [2, 9, 9] ∧
    pfGrowAfter.positions.map Position.weight = [4, 8, 8] ∧
    (8 : ℚ) = 9 * ((2 + (9 + 9) - 4) / (9 + 9)) ∧
    calculate_concentration_risk pfGrowAfter < calculate_concentration_risk pfGrowBefore := by
  refine ⟨by norm_num [pfGrowBefore, weightFixture], by norm_num [pfGrowAfter, weightFixture],
    by norm_num, ?_⟩
  have hb : pfGrowBefore.positions = [⟨"AAA", 1, "EQUITY", 1, 1, 1, none, none, 2⟩,
      ⟨"BBB", 1, "EQUITY", 1, 1, 1, none, none, 9⟩,
      ⟨"CCC", 1, "EQUITY", 1, 1, 1, none, none, 9⟩] := by
    norm_num [pfGrowBefore, weightFixture]
  have ha : pfGrowAfter.positions = [⟨"AAA", 1, "EQUITY", 1, 1, 1, none, none, 4⟩,
      ⟨"BBB", 1, "EQUITY", 1, 1, 1, none, none, 8⟩,
      ⟨"CCC", 1, "EQUITY", 1, 1, 1, none, none, 8⟩] := by
    norm_num [pfGrowAfter, weightFixture]
  norm_num [calculate_concentration_risk, hb, ha, min_def]
  simp
  norm_num
